import Mathlib

/-!
# Verification of the footer bot (`bot.py`)

A shallow embedding of the Telegram document-footer bot: the per-user
conversation state machine, the docx footer-injection pipeline, the
LibreOffice conversion wrapper, the retrying messenger, and the cleanup
sweep.  Every definition is translated from `src/bot.py`; theorems settle
the frozen specification claims C1..C10.
-/

namespace FooterBot

/-! ## Python string primitives

The bot manipulates file names with Python string operations.  We embed the
exact Python semantics (for the ASCII inputs the bot deals in) on `String`
via its underlying character list.  All definitions are structurally
recursive so they reduce inside `decide` / `rfl`.
-/

/-- Python `str.strip()` whitespace set (ASCII part, which is all the bot
relies on): space, tab, newline, carriage return, vertical tab, form feed. -/
def isPySpace (c : Char) : Bool :=
  c = ' ' || c = '\t' || c = '\n' || c = '\r' || c = '\x0b' || c = '\x0c'

/-- Python `str.strip()`: remove leading and trailing whitespace. -/
def pyStrip (s : String) : String :=
  ⟨((s.data.dropWhile isPySpace).reverse.dropWhile isPySpace).reverse⟩

/-- Python `str.lower()` on the ASCII range (the only range exercised by the
supported-extension check). -/
def pyLower (s : String) : String :=
  ⟨s.data.map Char.toLower⟩

/-- Python `os.path.splitext(s)[1]`: the suffix starting at the last dot of the
name, where the leading dots of a name are never an extension boundary
(`splitext(".docx") = (".docx", "")`).  Directory separators do not occur in
the Telegram file names the bot feeds to it. -/
def splitextExt (s : String) : String :=
  let rest := s.data.dropWhile (fun c => c = '.')
  let tailRev := rest.reverse.takeWhile (fun c => c ≠ '.')
  if tailRev.length = rest.length then ""
  else ⟨'.' :: tailRev.reverse⟩

/-- Python `os.path.dirname`: everything up to the last `/` (with trailing slashes
stripped unless the head is all slashes), `""` when there is no slash.  The
pipeline only ever passes bare file names, for which the result is `""`. -/
def pyDirname (s : String) : String :=
  let head := (s.data.reverse.dropWhile (fun c => c ≠ '/')).reverse
  if head = [] then ""
  else if head.all (fun c => c = '/') then ⟨head⟩
  else ⟨(head.reverse.dropWhile (fun c => c = '/')).reverse⟩

/-- One fuel-indexed pass of Python `str.replace`: scan left to right,
replacing each leftmost non-overlapping occurrence of `pat`.  `fuel` only
needs to dominate the length of the scanned list; `pyReplaceL` instantiates
it with exactly that length. -/
def pyReplaceFuel (pat rep : List Char) : Nat → List Char → List Char
  | 0, s => s
  | fuel + 1, s =>
    match s with
    | [] => []
    | c :: cs =>
      if pat ≠ [] ∧ pat.isPrefixOf (c :: cs) then
        rep ++ pyReplaceFuel pat rep fuel ((c :: cs).drop pat.length)
      else
        c :: pyReplaceFuel pat rep fuel cs

/-- Python `s.replace(pat, rep)` on character lists (for non-empty `pat`,
which is the only way the bot calls it). -/
def pyReplaceL (s pat rep : List Char) : List Char :=
  pyReplaceFuel pat rep s.length s

/-- Python `s.replace(pat, rep)` on strings. -/
def pyStrReplace (s pat rep : String) : String :=
  ⟨pyReplaceL s.data pat.data rep.data⟩

/-- Python `s.endswith(suffix)`. -/
def pyEndsWith (s suffix : String) : Bool :=
  suffix.data.isSuffixOf s.data

/-! ## Constants from `bot.py` -/

/-- Constant `SUPPORTED_EXTENSIONS = {'.docx'}`. -/
def SUPPORTED_EXTENSIONS : List String := [".docx"]

/-- Constant `MAX_RETRIES = 3`. -/
def MAX_RETRIES : Nat := 3

/-- Constant `RETRY_DELAY = 1` (seconds). -/
def RETRY_DELAY : Nat := 1

/-! ## RetryingMessenger: `send_message_with_retry`

The Telegram transport is modelled as a function from the attempt index to
the outcome `reply_text` produces on that attempt.  The embedding returns
the boolean result together with the ordered trace of attempts and sleeps;
that the codomain is `Bool × List SendEvent` (not an `Except`) reflects that
the Python function catches every exception class and never raises.
-/

/-- Outcome of one `update.message.reply_text` call, one constructor per
`except` arm of `send_message_with_retry`. -/
inductive SendOutcome
  | ok
  | timedOut
  | networkError
  | retryAfter (w : Nat)
  | otherError
  deriving DecidableEq

/-- Observable events of the retry loop: a delivery attempt (with its
0-based index) or an `asyncio.sleep` of a duration in seconds. -/
inductive SendEvent
  | attempt (i : Nat)
  | wait (d : Nat)
  deriving DecidableEq

/-- The `for attempt in range(max_retries)` loop of
`send_message_with_retry`, with `i` the current attempt index and
`remaining` the number of loop iterations left (`remaining = maxRetries - i`
at every real call site).  Falling out of the loop returns `False`. -/
def sendLoop (transport : Nat → SendOutcome) (maxRetries : Nat) :
    Nat → Nat → Bool × List SendEvent
  | _, 0 => (false, [])
  | i, r + 1 =>
    match transport i with
    | .ok => (true, [.attempt i])
    | .timedOut =>
      if i < maxRetries - 1 then
        let res := sendLoop transport maxRetries (i + 1) r
        (res.1, .attempt i :: .wait RETRY_DELAY :: res.2)
      else (false, [.attempt i])
    | .networkError =>
      if i < maxRetries - 1 then
        let res := sendLoop transport maxRetries (i + 1) r
        (res.1, .attempt i :: .wait RETRY_DELAY :: res.2)
      else (false, [.attempt i])
    | .retryAfter w =>
      let res := sendLoop transport maxRetries (i + 1) r
      (res.1, .attempt i :: .wait w :: res.2)
    | .otherError => (false, [.attempt i])

/-- Function `send_message_with_retry(update, text, max_retries)`: run the retry loop
from attempt 0. -/
def send_message_with_retry (transport : Nat → SendOutcome) (maxRetries : Nat) :
    Bool × List SendEvent :=
  sendLoop transport maxRetries 0 maxRetries

/-- A transport whose every attempt fails with a transient network error
(`TimedOut` or `NetworkError`). -/
def transientOnly (transport : Nat → SendOutcome) : Prop :=
  ∀ i, transport i = .timedOut ∨ transport i = .networkError

/-- A transport whose every attempt reports a rate limit with wait `w`. -/
def rateLimitedOnly (transport : Nat → SendOutcome) (w : Nat) : Prop :=
  ∀ i, transport i = .retryAfter w

/-- The trace produced by `m` transient failures: `m` attempts with the
fixed `RETRY_DELAY` sleep between consecutive attempts and none after the
last. -/
def failTrace (m : Nat) : List SendEvent :=
  (List.range m).flatMap fun i =>
    if i + 1 < m then [.attempt i, .wait RETRY_DELAY] else [.attempt i]

/-- The trace produced by `m` rate-limited attempts with signalled wait `w`:
every attempt is followed by a sleep of exactly `w`. -/
def rateTrace (m w : Nat) : List SendEvent :=
  (List.range m).flatMap fun i => [.attempt i, .wait w]

/-- Is a trace event an attempt? -/
def isAttempt : SendEvent → Bool
  | .attempt _ => true
  | .wait _ => false

/-! ## The docx document model and `process_docx`

`python-docx` objects are embedded structurally: a run carries its text,
font size (in EMU, `Pt 10 = 127000`), font name and the list of field
instructions appended to its XML element; a table cell starts life with one
paragraph to which `add_run` appends.  Lengths are in EMU:
`Inches 0.3 = 274320`, `Inches 2.5 = 2286000`, `Inches 7.5 = 6858000`,
`Pt 10 = 127000`.
-/

/-- A `docx` text run: text, `font.size`, `font.name`, and any `fldSimple`
field instructions appended to the run element (`"PAGE"` for a live page
number). -/
structure Run where
  text : String
  sizeEmu : Option Nat
  fontName : Option String
  fields : List String
  deriving DecidableEq

/-- A `docx` paragraph: a list of runs. -/
structure Paragraph where
  runs : List Run
  deriving DecidableEq

/-- A `docx` table cell: its paragraphs (a fresh cell holds one empty
paragraph). -/
structure Cell where
  paragraphs : List Paragraph
  deriving DecidableEq

/-- A `docx` table: dimensions, row-major cells, overall width, per-column
widths and the autofit flag. -/
structure Table where
  rows : Nat
  cols : Nat
  cells : List (List Cell)
  widthEmu : Nat
  colWidths : List Nat
  autofit : Bool
  deriving DecidableEq

/-- A section footer: its paragraphs and tables. -/
structure Footer where
  paragraphs : List Paragraph
  tables : List Table
  deriving DecidableEq

/-- A `docx` section: the footer distance (EMU) and the footer itself. -/
structure Sect where
  footerDistanceEmu : Option Nat
  footer : Footer
  deriving DecidableEq

/-- A `docx` document: its sections. -/
structure DocxDocument where
  sections : List Sect
  deriving DecidableEq

/-- Size `Pt n` in EMU. -/
def ptEmu (n : Nat) : Nat := n * 12700

/-- The footer-output file name `f"{name}_{roll_no}.docx"`. -/
def docxOutputPath (name roll : String) : String :=
  name ++ "_" ++ roll ++ ".docx"

/-- The one-row three-cell footer table `process_docx` builds: left cell
`"Name: {name}"`, middle cell `"Roll No: {roll_no}"`, right cell the
literal `"Page no:"` label followed by an empty run carrying a `PAGE`
field; every run 10 pt Times New Roman; three 2.5-inch columns in a
7.5-inch table with autofit off. -/
def footerTable (name roll : String) : Table where
  rows := 1
  cols := 3
  cells :=
    [[ ⟨[⟨[⟨"Name: " ++ name, some (ptEmu 10), some "Times New Roman", []⟩]⟩]⟩,
       ⟨[⟨[⟨"Roll No: " ++ roll, some (ptEmu 10), some "Times New Roman", []⟩]⟩]⟩,
       ⟨[⟨[⟨"Page no:", some (ptEmu 10), some "Times New Roman", []⟩,
           ⟨"", some (ptEmu 10), some "Times New Roman", ["PAGE"]⟩]⟩]⟩ ]]
  widthEmu := 6858000
  colWidths := [2286000, 2286000, 2286000]
  autofit := false

/-- The per-section body of the `for section in doc.sections` loop of
`process_docx`: set `footer_distance` to 0.3 inch, remove every existing
footer paragraph, and append the three-cell footer table (existing tables
are left in place: the code only deletes paragraphs). -/
def processSection (name roll : String) (sec : Sect) : Sect where
  footerDistanceEmu := some 274320
  footer := { paragraphs := [], tables := sec.footer.tables ++ [footerTable name roll] }

/-- Function `process_docx(file_path, name, roll_no, user_identifier)`: rewrite the
footer of every section and save under `f"{name}_{roll_no}.docx"`; returns
the saved document and its path. -/
def process_docx (doc : DocxDocument) (name roll : String) : DocxDocument × String :=
  (⟨doc.sections.map (processSection name roll)⟩, docxOutputPath name roll)

/-- All runs of a cell, in document order. -/
def cellRuns (c : Cell) : List Run :=
  (c.paragraphs.map Paragraph.runs).flatten

/-- The concatenated text of a cell. -/
def cellText (c : Cell) : String :=
  String.join ((cellRuns c).map Run.text)

/-! ## SubprocessConverter: `convert_docx_to_pdf`

The LibreOffice child process is a parameter `runner` mapping the argument
vector to the `(returncode, stderr)` pair `process.communicate()`
observes.  A non-zero exit raises `Exception(f"Conversion failed: ...")`,
embedded as `Except.error`.
-/

/-- The fixed argument vector
`['soffice', '--headless', '--convert-to', 'pdf', '--outdir', dirname, path]`. -/
def convertCmd (docx_path : String) : List String :=
  ["soffice", "--headless", "--convert-to", "pdf", "--outdir",
   pyDirname docx_path, docx_path]

/-- Function `convert_docx_to_pdf(docx_path)`: compute the output path by
`docx_path.replace('.docx', '.pdf')`, invoke the converter, and either
return the path (exit 0) or raise carrying the captured stderr. -/
def convert_docx_to_pdf (runner : List String → Nat × String)
    (docx_path : String) : Except String String :=
  let pdf_path := pyStrReplace docx_path ".docx" ".pdf"
  let res := runner (convertCmd docx_path)
  if res.1 ≠ 0 then Except.error ("Conversion failed: " ++ res.2)
  else Except.ok pdf_path

/-! ## The conversation state machine and session store

`user_data` holds at most one session per user; the claims are per-user, so
the state carries a single user's conversation state, session record and a
view of the working directory (`disk : String → Bool`).  The
`ConversationHandler` routing is the `step` dispatcher: documents are entry
points (only handled outside an active conversation, `allow_reentry` being
off), text is routed to `handle_name` / `handle_rollno` by the current
state, and `/cancel` is a fallback (only active inside a conversation).
-/

/-- The user-visible messages of `bot.py`. -/
def askNameMsg : String := "Please send your name:"

/-- Prompt for the roll number. -/
def askRollMsg : String := "Please send your roll number:"

/-- Re-prompt on an empty name. -/
def invalidNameMsg : String := "❌ Please provide a valid name:"

/-- Re-prompt on an empty roll number. -/
def invalidRollMsg : String := "❌ Please provide a valid roll number:"

/-- Rejection of a non-docx upload. -/
def unsupportedMsg : String := "❌ Unsupported file type. Please send a DOCX file."

/-- Acknowledgement sent before the pipeline runs. -/
def ackMsg : String := "🔄 Processing your document. Please wait..."

/-- Success message after delivery. -/
def successMsg : String := "✅ Document processed successfully!"

/-- The generic failure message of `handle_document` / `handle_rollno`. -/
def genericErrMsg : String :=
  "❌ An error occurred while processing your document. Please try again."

/-- The generic message of the top-level `error_handler`. -/
def topErrMsg : String :=
  "❌ An error occurred while processing your request. Please try again."

/-- Confirmation message of `/cancel`. -/
def cancelMsg : String := "Operation cancelled. Send /start to begin again."

/-- The conversation state of one user: no active conversation
(`ConversationHandler.END` / never started), `WAITING_FOR_NAME`, or
`WAITING_FOR_ROLLNO`. -/
inductive ConvState
  | idle
  | waitingName
  | waitingRollno
  deriving DecidableEq

/-- One user's `user_data` record.  `bot.py` stores `file_path`,
`file_ext`, `file_name`, `user_identifier` at document time and adds
`name` in `handle_name`; the roll number is never stored, it lives in a
local of `handle_rollno`. -/
structure Session where
  file_path : String
  file_ext : String
  file_name : String
  user_identifier : String
  name : Option String
  deriving DecidableEq

/-- The per-user bot state: conversation state, session record, and which
paths exist in the working directory. -/
structure BotState where
  conv : ConvState
  sess : Option Session
  disk : String → Bool

/-- Create a file on disk. -/
def dinsert (p : String) (d : String → Bool) : String → Bool :=
  fun q => if q = p then true else d q

/-- Python `os.remove` guarded by `os.path.exists`: the path is gone afterwards. -/
def derase (p : String) (d : String → Bool) : String → Bool :=
  fun q => if q = p then false else d q

/-- How the pipeline body of `handle_rollno` terminates: all steps succeed,
or `process_docx` raises (nothing written), or the conversion raises (the
footer-injected derivative was written), or delivery raises after both the
derivative and the pdf exist. -/
inductive PipeOutcome
  | success
  | failProcess
  | failConvert
  | failDeliver
  deriving DecidableEq

/-- Inbound events for one user: a document message (file name and the
username-or-id display identifier), a text message (with the environment's
pipeline outcome, consulted only if the pipeline runs), or `/cancel`. -/
inductive Ev
  | doc (file_name user_identifier : String)
  | text (t : String) (po : PipeOutcome)
  | cancelCmd

/-- Result of one handler dispatch: the new state, the messages sent, and
the `(name, roll)` pair when the pipeline was invoked. -/
structure StepOut where
  st : BotState
  msgs : List String
  pipe : Option (String × String)

/-- Handler `handle_document`: check the lowered extension against
`SUPPORTED_EXTENSIONS`; on acceptance download to
`f"{user_identifier}_{file_name}"`, overwrite `user_data[user_id]`, prompt
for the name and enter `WAITING_FOR_NAME`; otherwise inform the user and
end with no session. -/
def handle_document (s : BotState) (fn uid : String) : StepOut :=
  let ext := pyLower (splitextExt fn)
  if ext ∈ SUPPORTED_EXTENSIONS then
    let fp := uid ++ "_" ++ fn
    ⟨⟨.waitingName, some ⟨fp, ext, fn, uid, none⟩, dinsert fp s.disk⟩,
      [askNameMsg], none⟩
  else ⟨s, [unsupportedMsg], none⟩

/-- Handler `handle_name`: strip the text; an empty result re-prompts without any
change, otherwise store the name and move to `WAITING_FOR_ROLLNO`.  With no
session record the assignment raises `KeyError`, which the top-level
`error_handler` turns into a generic message with the conversation state
untouched (unreachable in real traces). -/
def handle_name (s : BotState) (t : String) : StepOut :=
  let name := pyStrip t
  if name = "" then ⟨s, [invalidNameMsg], none⟩
  else
    match s.sess with
    | none => ⟨s, [topErrMsg], none⟩
    | some sess =>
      ⟨⟨.waitingRollno, some { sess with name := some name }, s.disk⟩,
        [askRollMsg], none⟩

/-- The pipeline body of `handle_rollno` once a non-empty roll number and a
named session are in hand: write the derivative, convert, deliver, then
clean up.  On success all of `file_path`, the derivative and the pdf are
removed; any raise is caught by the `except` arm, which removes only
`file_path`, deletes the session and ends the conversation with the
generic failure message. -/
def runPipeline (s : BotState) (sess : Session) (name roll : String)
    (po : PipeOutcome) : StepOut :=
  let fp := sess.file_path
  let dout := docxOutputPath name roll
  let pout := pyStrReplace dout ".docx" ".pdf"
  match po with
  | .success =>
    ⟨⟨.idle, none,
       derase pout (derase dout (derase fp (dinsert pout (dinsert dout s.disk))))⟩,
      [ackMsg, successMsg], some (name, roll)⟩
  | .failProcess =>
    ⟨⟨.idle, none, derase fp s.disk⟩, [ackMsg, genericErrMsg], some (name, roll)⟩
  | .failConvert =>
    ⟨⟨.idle, none, derase fp (dinsert dout s.disk)⟩,
      [ackMsg, genericErrMsg], some (name, roll)⟩
  | .failDeliver =>
    ⟨⟨.idle, none, derase fp (dinsert pout (dinsert dout s.disk))⟩,
      [ackMsg, genericErrMsg], some (name, roll)⟩

/-- Handler `handle_rollno`: strip the text; empty re-prompts unchanged; otherwise
run the pipeline.  A missing session raises `KeyError` after the
acknowledgement and the `except` arm finds `user_id not in user_data`
(ends, touching nothing); a session without a name raises on
`data['name']` and the `except` arm removes the source file and the
session. -/
def handle_rollno (s : BotState) (t : String) (po : PipeOutcome) : StepOut :=
  let roll := pyStrip t
  if roll = "" then ⟨s, [invalidRollMsg], none⟩
  else
    match s.sess with
    | none => ⟨⟨.idle, none, s.disk⟩, [ackMsg, genericErrMsg], none⟩
    | some sess =>
      match sess.name with
      | none =>
        ⟨⟨.idle, none, derase sess.file_path s.disk⟩,
          [ackMsg, genericErrMsg], none⟩
      | some name => runPipeline s sess name roll po

/-- Handler `cancel`: delete the recorded source file and the session, confirm, and
end the conversation. -/
def cancel_conv (s : BotState) : StepOut :=
  match s.sess with
  | some sess => ⟨⟨.idle, none, derase sess.file_path s.disk⟩, [cancelMsg], none⟩
  | none => ⟨⟨.idle, none, s.disk⟩, [cancelMsg], none⟩

/-- The `ConversationHandler` dispatch for one inbound event: documents are
entry points (ignored during an active conversation), text goes to the
current state's handler (ignored when idle: no handler matches), `/cancel`
is a fallback (ignored when idle). -/
def step (s : BotState) : Ev → StepOut
  | .doc fn uid =>
    match s.conv with
    | .idle => handle_document s fn uid
    | _ => ⟨s, [], none⟩
  | .text t po =>
    match s.conv with
    | .idle => ⟨s, [], none⟩
    | .waitingName => handle_name s t
    | .waitingRollno => handle_rollno s t po
  | .cancelCmd =>
    match s.conv with
    | .idle => ⟨s, [], none⟩
    | _ => cancel_conv s

/-- The initial state: no conversation, no session, a given directory
content. -/
def init (d0 : String → Bool) : BotState := ⟨.idle, none, d0⟩

/-- Run a list of events through the dispatcher. -/
def runEvents (s : BotState) (evs : List Ev) : BotState :=
  evs.foldl (fun s e => (step s e).st) s

/-! ## CleanupManager: `cleanup`, the signal handler and the main guard -/

/-- Does `cleanup()` delete this directory entry?
`file.endswith(('.docx', '.pdf')) and not file == 'requirements.txt'`. -/
def sweepMatches (f : String) : Bool :=
  (pyEndsWith f ".docx" || pyEndsWith f ".pdf") && f ≠ "requirements.txt"

/-- The file-sweep portion of `cleanup()`: remove every matching entry,
tolerating per-file deletion errors (`fails` marks the entries whose
`os.remove` raises; those survive and the loop continues). -/
def sweepDisk (fails : String → Bool) (d : String → Bool) : String → Bool :=
  fun f => d f && (!(sweepMatches f) || fails f)

/-- Top-level lifecycle actions of the process. -/
inductive LifeEvent
  | serveBot
  | stopApp
  | sweepDir
  deriving DecidableEq

/-- Function `cleanup()`: stop/shutdown the application, then sweep the working
directory. -/
def cleanupTrace : List LifeEvent := [.stopApp, .sweepDir]

/-- The `__main__` guard: `main()` runs the bot (polling); the `finally`
block then runs `cleanup()`.  Nothing runs before the bot starts serving. -/
def mainGuardTrace : List LifeEvent := [.serveBot] ++ cleanupTrace

/-- Function `signal_handler` (SIGINT/SIGTERM): schedule `cleanup()` and exit. -/
def signalHandlerTrace : List LifeEvent := cleanupTrace

/-! ## Behaviour of the retry loop -/

/-- Under an always-transient transport, the retry loop starting at attempt
`i` with `r` iterations left performs exactly the `r` remaining attempts,
sleeping `RETRY_DELAY` between consecutive ones, and fails. -/
lemma sendLoop_transient {transport : Nat → SendOutcome}
    (h : transientOnly transport) (m : Nat) :
    ∀ r i, i + r = m →
      sendLoop transport m i r =
        (false, (List.range' i r).flatMap fun j =>
          if j + 1 < m then [.attempt j, .wait RETRY_DELAY] else [.attempt j]) := by
  intro r
  induction r with
  | zero => intro i _; simp [sendLoop]
  | succ r ih =>
    intro i hi
    rw [List.range'_succ, List.flatMap_cons]
    rcases h i with ht | ht <;> by_cases hc : i + 1 < m
    · have h1 : i < m - 1 := by omega
      simp only [sendLoop, ht, if_pos h1, ih (i + 1) (by omega), if_pos hc,
        List.cons_append, List.nil_append]
    · have h1 : ¬ i < m - 1 := by omega
      have hr : r = 0 := by omega
      subst hr
      simp only [sendLoop, ht, if_neg h1, if_neg hc, List.range',
        List.flatMap_nil, List.append_nil]
    · have h1 : i < m - 1 := by omega
      simp only [sendLoop, ht, if_pos h1, ih (i + 1) (by omega), if_pos hc,
        List.cons_append, List.nil_append]
    · have h1 : ¬ i < m - 1 := by omega
      have hr : r = 0 := by omega
      subst hr
      simp only [sendLoop, ht, if_neg h1, if_neg hc, List.range',
        List.flatMap_nil, List.append_nil]

/-- Under an always-rate-limited transport, every loop iteration attempts,
sleeps the signalled duration and continues; the loop never succeeds. -/
lemma sendLoop_rateLimited {transport : Nat → SendOutcome} {w : Nat}
    (h : rateLimitedOnly transport w) (m : Nat) :
    ∀ r i, sendLoop transport m i r =
      (false, (List.range' i r).flatMap fun j => [.attempt j, .wait w]) := by
  intro r
  induction r with
  | zero => intro i; simp [sendLoop]
  | succ r ih =>
    intro i
    rw [List.range'_succ, List.flatMap_cons]
    simp only [sendLoop, h i, ih (i + 1), List.cons_append, List.nil_append]

/-- Counting attempts in the transient-failure trace. -/
lemma transientTrace_attempts (m : Nat) : ∀ r i,
    (((List.range' i r).flatMap fun j =>
        if j + 1 < m then [SendEvent.attempt j, .wait RETRY_DELAY] else [.attempt j]).filter
      isAttempt).length = r := by
  intro r
  induction r with
  | zero => intro i; simp
  | succ r ih =>
    intro i
    rw [List.range'_succ, List.flatMap_cons, List.filter_append,
      List.length_append, ih (i + 1)]
    by_cases hc : i + 1 < m
    · rw [if_pos hc]; simp [isAttempt]; omega
    · rw [if_neg hc]; simp [isAttempt]; omega

/-- C4. If every delivery attempt fails with a transient network error
(`TimedOut` / `NetworkError`), `send_message_with_retry` makes exactly
`max_retries` attempts with the fixed `RETRY_DELAY` sleep between
consecutive attempts (and none after the last) and returns `False`; the
function is total into `Bool × trace`, embedding that every outcome of the
transport — transient, rate limit, or any other error class — is caught
and reported as a boolean, never as an exception. -/
theorem claim4_transient_exhaustion (transport : Nat → SendOutcome) (m : Nat)
    (h : transientOnly transport) :
    send_message_with_retry transport m = (false, failTrace m) ∧
    ((send_message_with_retry transport m).2.filter isAttempt).length = m := by
  have hmain : send_message_with_retry transport m = (false, failTrace m) := by
    rw [send_message_with_retry, sendLoop_transient h m m 0 (by omega),
      failTrace, List.range_eq_range']
  refine ⟨hmain, ?_⟩
  rw [hmain, failTrace, List.range_eq_range']
  exact transientTrace_attempts m m 0

/-- Witness for C4: a transport that always times out, with the default
`MAX_RETRIES = 3`. -/
theorem claim4_witness :
    send_message_with_retry (fun _ => SendOutcome.timedOut) MAX_RETRIES =
      (false, failTrace MAX_RETRIES) ∧
    ((send_message_with_retry (fun _ => SendOutcome.timedOut) MAX_RETRIES).2.filter
      isAttempt).length = MAX_RETRIES :=
  claim4_transient_exhaustion (fun _ => SendOutcome.timedOut) MAX_RETRIES
    (fun _ => Or.inl rfl)

/-- C3 (amended). A rate-limit signal carrying wait `w` makes the loop
sleep exactly the signalled `w` (so at least `w`, and not the fixed delay)
before the next attempt, and a rate-limited attempt that is followed by a
successful one yields `True`; however a rate-limited attempt does consume
an iteration of the `for attempt in range(max_retries)` loop, so a
transport that is rate-limited on every attempt exhausts the loop after
`max_retries` attempts and the function returns `False` — the loop does
not continue indefinitely. -/
theorem claim3_rate_limit_behaviour :
    (∀ (transport : Nat → SendOutcome) (m w : Nat), rateLimitedOnly transport w →
      send_message_with_retry transport m = (false, rateTrace m w)) ∧
    (∀ w : Nat,
      send_message_with_retry (fun i => if i = 0 then .retryAfter w else .ok) 2 =
        (true, [.attempt 0, .wait w, .attempt 1])) := by
  constructor
  · intro transport m w h
    rw [send_message_with_retry, sendLoop_rateLimited h m m 0,
      rateTrace, List.range_eq_range']
  · intro w
    rfl

/-- Witness for C3 (amended): a concrete always-rate-limited transport and
a concrete rate-limited-then-ok transport. -/
theorem claim3_witness :
    send_message_with_retry (fun _ => SendOutcome.retryAfter 5) MAX_RETRIES =
      (false, rateTrace MAX_RETRIES 5) ∧
    send_message_with_retry (fun i => if i = 0 then SendOutcome.retryAfter 9 else .ok) 2 =
      (true, [.attempt 0, .wait 9, .attempt 1]) :=
  ⟨claim3_rate_limit_behaviour.1 _ MAX_RETRIES 5 (fun _ => rfl),
   claim3_rate_limit_behaviour.2 9⟩

/-- C3 counterexample. The claim says a rate-limited attempt is not
counted against the maximum retry count and the loop continues
indefinitely until the transport succeeds or reports a different error
class.  On a transport that reports a rate limit (wait 7) on every
attempt, `send_message_with_retry` with `max_retries = 3` terminates after
exactly three attempts and returns `False`: the rate-limited attempts do
consume the retry budget. -/
theorem claim3_counterexample :
    send_message_with_retry (fun _ => SendOutcome.retryAfter 7) 3 =
      (false, [.attempt 0, .wait 7, .attempt 1, .wait 7, .attempt 2, .wait 7]) ∧
    ((send_message_with_retry (fun _ => SendOutcome.retryAfter 7) 3).2.filter
      isAttempt).length = 3 := by
  constructor <;> rfl

/-! ## The converter contract (C6, C10) -/

/-- C6: `convert_docx_to_pdf` invokes the converter with exactly
`--headless --convert-to pdf --outdir <dir> <inputPath>`; exit status 0
returns the computed output path; a non-zero status raises carrying the
captured stderr; and the pipeline caller (`handle_rollno`) translates a
conversion failure into the fixed generic user-facing message, which never
embeds the diagnostic. -/
theorem claim6_converter_contract :
    (∀ p : String, convertCmd p =
      ["soffice", "--headless", "--convert-to", "pdf", "--outdir", pyDirname p, p]) ∧
    (∀ (runner : List String → Nat × String) (p err : String),
      runner (convertCmd p) = (0, err) →
      convert_docx_to_pdf runner p = Except.ok (pyStrReplace p ".docx" ".pdf")) ∧
    (∀ (runner : List String → Nat × String) (p err : String) (code : Nat),
      runner (convertCmd p) = (code, err) → code ≠ 0 →
      convert_docx_to_pdf runner p = Except.error ("Conversion failed: " ++ err)) ∧
    (∀ (s : BotState) (sess : Session) (t name : String),
      s.conv = .waitingRollno → s.sess = some sess → sess.name = some name →
      pyStrip t ≠ "" →
      (step s (.text t .failConvert)).msgs = [ackMsg, genericErrMsg]) := by
  refine ⟨fun p => rfl, ?_, ?_, ?_⟩
  · intro runner p err h
    simp [convert_docx_to_pdf, h]
  · intro runner p err code h hcode
    simp [convert_docx_to_pdf, h, hcode]
  · intro s sess t name hconv hsess hname ht
    rcases s with ⟨conv, so, d⟩
    cases hconv
    simp only [Option.some.injEq] at hsess
    simp [step, handle_rollno, hsess, hname, if_neg ht, runPipeline]

/-- Witness for C6: a succeeding run, a failing run with diagnostic
`"boom"`, and the caller's generic message on a conversion failure. -/
theorem claim6_witness :
    convert_docx_to_pdf (fun _ => (0, "")) "a.docx" = Except.ok "a.pdf" ∧
    convert_docx_to_pdf (fun _ => (1, "boom")) "a.docx" =
      Except.error ("Conversion failed: " ++ "boom") ∧
    (step ⟨.waitingRollno, some ⟨"u_a.docx", ".docx", "a.docx", "u", some "Alice"⟩,
        fun _ => false⟩ (.text "7" .failConvert)).msgs = [ackMsg, genericErrMsg] := by
  refine ⟨?_, ?_, ?_⟩
  · rw [claim6_converter_contract.2.1 (fun _ => (0, "")) "a.docx" "" rfl]
    rfl
  · exact claim6_converter_contract.2.2.1 (fun _ => (1, "boom")) "a.docx" "boom" 1 rfl
      (by decide)
  · exact claim6_converter_contract.2.2.2 _ _ "7" "Alice" rfl rfl rfl (by decide)

/-- Modelled from the claim's words for comparison: the path obtained from a
`.docx` path by changing only the final extension to `.pdf` — which is also
the name the external converter itself writes under (`--outdir` plus the
base name with the final extension swapped). -/
def changeOnlyFinalExt (s : String) : String :=
  if pyEndsWith s ".docx" then ⟨s.data.take (s.data.length - 5) ++ ".pdf".data⟩
  else s

/-- C10: `convert_docx_to_pdf` computes its returned path by replacing
every occurrence of `".docx"` with `".pdf"`: on the pipeline-produced input
`x.docx_1.docx` (name `"x.docx"`, roll `"1"`, both legal non-empty user
text) it returns `x.pdf_1.pdf`, which differs from `x.docx_1.pdf`, the path
obtained by changing only the final extension — so the path the pipeline
opens for delivery need not be the one the converter wrote. -/
theorem claim10_replace_all_occurrences :
    convert_docx_to_pdf (fun _ => (0, "")) (docxOutputPath "x.docx" "1") =
      Except.ok "x.pdf_1.pdf" ∧
    changeOnlyFinalExt (docxOutputPath "x.docx" "1") = "x.docx_1.pdf" ∧
    pyStrReplace (docxOutputPath "x.docx" "1") ".docx" ".pdf" ≠
      changeOnlyFinalExt (docxOutputPath "x.docx" "1") := by
  refine ⟨rfl, by decide, by decide⟩

/-! ## The cleanup sweep and process lifecycle (C9) -/

/-- C9 counterexample. The claim says the sweep runs at process
startup; in the code the first lifecycle action of the `__main__` guard is
serving the bot, and the only sweep in the whole trace comes after it (in
the `finally` cleanup) — no sweep precedes startup. -/
theorem claim9_counterexample :
    mainGuardTrace.head? = some LifeEvent.serveBot ∧
    mainGuardTrace.takeWhile (fun a => decide (a ≠ LifeEvent.serveBot)) = [] ∧
    LifeEvent.sweepDir ∈ mainGuardTrace := by
  refine ⟨rfl, rfl, by decide⟩

/-- C9 (amended). The sweep runs on receipt of a shutdown signal and at
process exit (the `finally` block) — not at startup — and it removes from
the working directory exactly the entries matching the transient-artifact
pattern (ending in `.docx` or `.pdf`, excluding `requirements.txt`): with
no deletion errors an entry survives iff it was present and does not
match; an entry whose deletion raises survives while the loop continues;
the sweep never creates files. -/
theorem claim9_sweep_behaviour :
    (∀ (d : String → Bool) (f : String),
      sweepDisk (fun _ => false) d f = (d f && !(sweepMatches f))) ∧
    (∀ (fails d : String → Bool) (f : String), fails f = true →
      sweepDisk fails d f = d f) ∧
    (∀ (fails d : String → Bool) (f : String),
      sweepDisk fails d f = true → d f = true) ∧
    LifeEvent.sweepDir ∈ signalHandlerTrace ∧
    mainGuardTrace.getLast? = some LifeEvent.sweepDir := by
  refine ⟨?_, ?_, ?_, by decide, rfl⟩
  · intro d f
    simp [sweepDisk]
  · intro fails d f h
    simp [sweepDisk, h]
  · intro fails d f h
    simp [sweepDisk] at h
    exact h.1

/-- Witness for C9 (amended): a matching file whose deletion fails survives
the sweep. -/
theorem claim9_witness :
    sweepDisk (fun g => decide (g = "a.pdf")) (fun _ => true) "a.pdf" = true :=
  (claim9_sweep_behaviour.2.1 (fun g => decide (g = "a.pdf")) (fun _ => true)
    "a.pdf" (by decide)).trans rfl

/-! ## The injected footer (C1) -/

/-- The footer layout C1 claims for one processed section: footer margin
reduced to 0.3 inch (below the half-inch default), the pre-existing footer
paragraphs cleared, and the newly added table being one row by three
equal-width columns whose cells read exactly `"Name: {name}"`,
`"Roll No: {rollNumber}"`, and the literal `"Page no:"` label followed by a
live `PAGE` field carried by a run with no text (in particular no static
digit appears in the right cell), everything in 10-point Times New Roman. -/
def footerSpec (name roll : String) (sec : Sect) : Prop :=
  sec.footerDistanceEmu = some 274320 ∧ 274320 < 457200 ∧
  sec.footer.paragraphs = [] ∧
  ∃ tbl, sec.footer.tables.getLast? = some tbl ∧
    tbl.rows = 1 ∧ tbl.cols = 3 ∧
    tbl.widthEmu = 6858000 ∧
    tbl.colWidths = [2286000, 2286000, 2286000] ∧
    tbl.autofit = false ∧
    ∃ lc mc rc, tbl.cells = [[lc, mc, rc]] ∧
      cellText lc = "Name: " ++ name ∧
      cellText mc = "Roll No: " ++ roll ∧
      (∃ labelRun fieldRun, cellRuns rc = [labelRun, fieldRun] ∧
        labelRun.text = "Page no:" ∧ labelRun.fields = [] ∧
        fieldRun.text = "" ∧ fieldRun.fields = ["PAGE"]) ∧
      (∀ c ∈ (cellText rc).data, ¬ c.isDigit) ∧
      ∀ r ∈ cellRuns lc ++ cellRuns mc ++ cellRuns rc,
        r.sizeEmu = some (ptEmu 10) ∧ r.fontName = some "Times New Roman"

/-- C1. For every document and every non-empty `(name, rollNumber)`
pair, `process_docx` rewrites the footer of every section to the claimed
three-cell layout. -/
theorem claim1_footer_layout (doc : DocxDocument) (name roll : String)
    (_hn : name ≠ "") (_hr : roll ≠ "") :
    ∀ sec ∈ (process_docx doc name roll).1.sections, footerSpec name roll sec := by
  intro sec hsec
  simp only [process_docx, List.mem_map] at hsec
  obtain ⟨s0, -, rfl⟩ := hsec
  refine ⟨rfl, by omega, rfl, footerTable name roll, List.getLast?_concat _, rfl, rfl,
    rfl, rfl, rfl, ?_⟩
  refine ⟨_, _, _, rfl, rfl, rfl, ⟨_, _, rfl, rfl, rfl, rfl, rfl⟩, by decide, ?_⟩
  intro r hrmem
  simp only [footerTable, cellRuns, List.map_cons, List.map_nil, List.flatten,
    List.append_nil, List.cons_append, List.nil_append, List.mem_cons,
    List.not_mem_nil, or_false] at hrmem
  rcases hrmem with rfl | rfl | rfl | rfl <;> exact ⟨rfl, rfl⟩

/-- Witness for C1: a one-section document whose footer held a leftover
paragraph, processed for Alice / 42. -/
theorem claim1_witness :
    footerSpec "Alice" "42"
      (processSection "Alice" "42" ⟨none, ⟨[⟨[]⟩], []⟩⟩) :=
  claim1_footer_layout ⟨[⟨none, ⟨[⟨[]⟩], []⟩⟩]⟩ "Alice" "42"
    (by decide) (by decide) _ (by simp [process_docx])

/-! ## Reachable-state invariant of the conversation machine -/

/-- The invariant every reachable per-user state satisfies: no session
record without an active conversation, and the roll-number state is only
inhabited with a session whose name is already set. -/
def Inv (s : BotState) : Prop :=
  (s.conv = .idle → s.sess = none) ∧
  (s.conv = .waitingRollno →
    ∃ sess name, s.sess = some sess ∧ sess.name = some name)

/-- The initial state satisfies the invariant. -/
lemma inv_init (d0 : String → Bool) : Inv (init d0) :=
  ⟨fun _ => rfl, fun h => nomatch h⟩

/-- Every dispatch preserves the invariant. -/
lemma inv_step (s : BotState) (e : Ev) (h : Inv s) : Inv (step s e).st := by
  obtain ⟨conv, so, d⟩ := s
  obtain ⟨h1, h2⟩ := h
  cases e with
  | doc fn uid =>
    cases conv with
    | idle =>
      simp only [step, handle_document]
      split
      · exact ⟨fun hc => (nomatch hc), fun hc => (nomatch hc)⟩
      · exact ⟨h1, h2⟩
    | waitingName => exact ⟨h1, h2⟩
    | waitingRollno => exact ⟨h1, h2⟩
  | text t po =>
    cases conv with
    | idle => exact ⟨h1, h2⟩
    | waitingName =>
      simp only [step, handle_name]
      split
      · exact ⟨h1, h2⟩
      · cases so with
        | none => exact ⟨h1, h2⟩
        | some sess =>
          exact ⟨fun hc => (nomatch hc), fun _ => ⟨_, _, rfl, rfl⟩⟩
    | waitingRollno =>
      simp only [step, handle_rollno]
      split
      · exact ⟨h1, h2⟩
      · cases so with
        | none => exact ⟨fun _ => rfl, fun hc => nomatch hc⟩
        | some sess =>
          cases hname : sess.name with
          | none =>
            simp only [hname]
            exact ⟨fun _ => rfl, fun hc => nomatch hc⟩
          | some name =>
            simp only [hname, runPipeline]
            cases po <;> exact ⟨fun _ => rfl, fun hc => nomatch hc⟩
  | cancelCmd =>
    cases conv with
    | idle => exact ⟨h1, h2⟩
    | waitingName =>
      simp only [step, cancel_conv]
      cases so <;> exact ⟨fun _ => rfl, fun hc => nomatch hc⟩
    | waitingRollno =>
      simp only [step, cancel_conv]
      cases so <;> exact ⟨fun _ => rfl, fun hc => nomatch hc⟩

/-- The invariant holds along every event trace. -/
lemma inv_run (evs : List Ev) : ∀ s : BotState, Inv s → Inv (runEvents s evs) := by
  induction evs with
  | nil => intro s h; exact h
  | cons e evs ih =>
    intro s h
    exact ih _ (inv_step s e h)

/-! ## Session cleanup (C2) -/

/-- C2 counterexample. The claim says that after a session reaches
`Terminal` no artifact path recorded on it — source file, footer-injected
derivative, converted output — exists on disk.  Running the trace
document(`a.docx` from user `u`) / name `"Alice"` / roll `"7"` where the
conversion step fails, the session is gone (`Terminal`) yet the
footer-injected derivative `Alice_7.docx` is still on disk: the error arm
of `handle_rollno` removes only the recorded source file. -/
theorem claim2_counterexample :
    (runEvents (init (fun _ => false))
      [.doc "a.docx" "u", .text "Alice" .success, .text "7" .failConvert]).sess
        = none ∧
    (runEvents (init (fun _ => false))
      [.doc "a.docx" "u", .text "Alice" .success, .text "7" .failConvert]).conv
        = .idle ∧
    (runEvents (init (fun _ => false))
      [.doc "a.docx" "u", .text "Alice" .success, .text "7" .failConvert]).disk
        "Alice_7.docx" = true ∧
    (runEvents (init (fun _ => false))
      [.doc "a.docx" "u", .text "Alice" .success, .text "7" .failConvert]).disk
        "u_a.docx" = false := by
  refine ⟨by decide, by decide, by decide, by decide⟩

/-- C2 (amended). On every exit path out of a reachable session — the
only steps that remove the session record — the source file path recorded
on the session is deleted from disk in the same step; on the success path
the footer-injected derivative and the converted output are deleted as
well; and a new document submission never replaces a live session record,
because a document is only dispatched when no conversation is active, a
state in which (reachably) no session exists.  Only the source path is
recorded on the session, and on an error path the derivative and output
may survive until the shutdown sweep. -/
theorem claim2_cleanup_on_exit :
    (∀ (d0 : String → Bool) (evs : List Ev) (e : Ev) (sess : Session),
      (runEvents (init d0) evs).sess = some sess →
      (step (runEvents (init d0) evs) e).st.sess = none →
      (step (runEvents (init d0) evs) e).st.disk sess.file_path = false) ∧
    (∀ (s : BotState) (sess : Session) (name t : String),
      s.sess = some sess → s.conv = .waitingRollno → sess.name = some name →
      pyStrip t ≠ "" →
      (step s (.text t .success)).st.sess = none ∧
      (step s (.text t .success)).st.disk sess.file_path = false ∧
      (step s (.text t .success)).st.disk (docxOutputPath name (pyStrip t)) = false ∧
      (step s (.text t .success)).st.disk
        (pyStrReplace (docxOutputPath name (pyStrip t)) ".docx" ".pdf") = false) ∧
    (∀ (d0 : String → Bool) (evs : List Ev),
      (runEvents (init d0) evs).conv = .idle →
      (runEvents (init d0) evs).sess = none) := by
  refine ⟨?_, ?_, ?_⟩
  · intro d0 evs e sess hsess hnone
    have hinv := inv_run evs (init d0) (inv_init d0)
    set s := runEvents (init d0) evs with hs
    obtain ⟨conv, so, d⟩ := s
    obtain ⟨h1, h2⟩ := hinv
    simp only at hsess
    subst hsess
    cases e with
    | doc fn uid =>
      cases conv with
      | idle => exact absurd (h1 rfl) (fun hc => (nomatch hc))
      | waitingName => exact absurd hnone (by simp [step])
      | waitingRollno => exact absurd hnone (by simp [step])
    | text t po =>
      cases conv with
      | idle => exact absurd hnone (by simp [step])
      | waitingName =>
        simp only [step, handle_name] at hnone ⊢
        split at hnone
        · exact absurd hnone (by simp)
        · exact absurd hnone (by simp)
      | waitingRollno =>
        by_cases hempty : pyStrip t = ""
        · simp only [step, handle_rollno, if_pos hempty] at hnone
          exact absurd hnone (by simp)
        · cases hname : sess.name with
          | none =>
            simp [step, handle_rollno, if_neg hempty, hname, derase]
          | some name =>
            simp only [step, handle_rollno, if_neg hempty, hname, runPipeline] at hnone ⊢
            cases po <;> simp [derase, dinsert]
    | cancelCmd =>
      cases conv with
      | idle => exact absurd hnone (by simp [step])
      | waitingName => simp [step, cancel_conv, derase]
      | waitingRollno => simp [step, cancel_conv, derase]
  · intro s sess name t hsess hconv hname ht
    obtain ⟨conv, so, d⟩ := s
    simp only at hconv hsess
    subst hconv
    subst hsess
    simp [step, handle_rollno, if_neg ht, hname, runPipeline, derase, dinsert]
  · intro d0 evs h
    exact (inv_run evs (init d0) (inv_init d0)).1 h

/-- Witness for C2 (amended): cancelling right after the document upload
deletes the recorded source file before the session record disappears. -/
theorem claim2_witness :
    (step (runEvents (init (fun _ => false)) [.doc "a.docx" "u"]) .cancelCmd).st.disk
      "u_a.docx" = false :=
  claim2_cleanup_on_exit.1 (fun _ => false) [.doc "a.docx" "u"] .cancelCmd
    ⟨"u_a.docx", ".docx", "a.docx", "u", none⟩ (by decide) (by decide)

/-! ## Input gating by the conversation state (C5) -/

/-- C5. The pipeline is invoked — the only way a roll-number input is
accepted and used — exactly on a non-empty stripped text received in
`WAITING_FOR_ROLLNO` with the stored name already present (the name the
pipeline uses is the stored one); outside `WAITING_FOR_NAME` a text
message never changes an existing session record (in particular never sets
a name; the roll number is never stored at all, the session record having
no such field); and reachably, `WAITING_FOR_ROLLNO` is only inhabited with
a session whose name is set. -/
theorem claim5_input_gating :
    (∀ (s : BotState) (e : Ev) (name roll : String),
      (step s e).pipe = some (name, roll) →
      s.conv = .waitingRollno ∧
      (∃ sess, s.sess = some sess ∧ sess.name = some name) ∧
      (∃ t po, e = .text t po ∧ pyStrip t = roll ∧ roll ≠ "")) ∧
    (∀ (s : BotState) (t : String) (po : PipeOutcome), s.conv ≠ .waitingName →
      (step s (.text t po)).st.sess = s.sess ∨ (step s (.text t po)).st.sess = none) ∧
    (∀ (d0 : String → Bool) (evs : List Ev),
      (runEvents (init d0) evs).conv = .waitingRollno →
      ∃ sess name, (runEvents (init d0) evs).sess = some sess ∧
        sess.name = some name) := by
  refine ⟨?_, ?_, ?_⟩
  · intro s e name roll hpipe
    obtain ⟨conv, so, d⟩ := s
    cases e with
    | doc fn uid =>
      exfalso
      cases conv <;> simp only [step, handle_document] at hpipe <;>
        first
        | exact absurd hpipe (by simp)
        | (split at hpipe <;> exact absurd hpipe (by simp))
    | text t po =>
      cases conv with
      | idle => exact absurd hpipe (by simp [step])
      | waitingName =>
        exfalso
        simp only [step, handle_name] at hpipe
        split at hpipe
        · exact absurd hpipe (by simp)
        · cases so <;> simp at hpipe
      | waitingRollno =>
        by_cases hempty : pyStrip t = ""
        · simp only [step, handle_rollno, if_pos hempty] at hpipe
          exact absurd hpipe (by simp)
        · cases so with
          | none =>
            simp only [step, handle_rollno, if_neg hempty] at hpipe
            exact absurd hpipe (by simp)
          | some sess =>
            cases hname : sess.name with
            | none =>
              simp only [step, handle_rollno, if_neg hempty, hname] at hpipe
              exact absurd hpipe (by simp)
            | some n =>
              simp only [step, handle_rollno, if_neg hempty, hname,
                runPipeline] at hpipe
              have hps : n = name ∧ pyStrip t = roll := by
                cases po <;>
                  · simp only [Option.some.injEq, Prod.mk.injEq] at hpipe
                    exact hpipe
              obtain ⟨rfl, hts⟩ := hps
              exact ⟨rfl, ⟨sess, rfl, hname⟩,
                t, po, rfl, hts, by rw [← hts]; exact hempty⟩
    | cancelCmd =>
      exfalso
      cases conv <;> simp only [step, cancel_conv] at hpipe <;>
        first
        | exact absurd hpipe (by simp)
        | (cases so <;> exact absurd hpipe (by simp))
  · intro s t po hconv
    obtain ⟨conv, so, d⟩ := s
    cases conv with
    | idle => exact Or.inl rfl
    | waitingName => exact absurd rfl hconv
    | waitingRollno =>
      by_cases hempty : pyStrip t = ""
      · exact Or.inl (by simp [step, handle_rollno, if_pos hempty])
      · cases so with
        | none => exact Or.inr (by simp [step, handle_rollno, if_neg hempty])
        | some sess =>
          cases hname : sess.name with
          | none =>
            exact Or.inr (by simp [step, handle_rollno, if_neg hempty, hname])
          | some n =>
            refine Or.inr ?_
            simp only [step, handle_rollno, if_neg hempty, hname, runPipeline]
            cases po <;> rfl
  · intro d0 evs h
    exact (inv_run evs (init d0) (inv_init d0)).2 h

/-- Witness for C5: the pipeline invocation out of a concrete
roll-number-waiting state implies the gating facts. -/
theorem claim5_witness :
    (⟨.waitingRollno, some ⟨"u_a.docx", ".docx", "a.docx", "u", some "Alice"⟩,
        fun _ => false⟩ : BotState).conv = .waitingRollno ∧
    (∃ sess, (⟨.waitingRollno, some ⟨"u_a.docx", ".docx", "a.docx", "u", some "Alice"⟩,
        fun _ => false⟩ : BotState).sess = some sess ∧ sess.name = some "Alice") ∧
    (∃ t po, (Ev.text "7" .success) = .text t po ∧ pyStrip t = "7" ∧ "7" ≠ "") :=
  claim5_input_gating.1 _ (.text "7" .success) "Alice" "7" (by decide)

/-! ## Text handling in the two waiting states (C8) -/

/-- C8. In `WAITING_FOR_NAME`, a text whose stripped value is non-empty
stores the name and moves to `WAITING_FOR_ROLLNO`, while a text stripping
to empty re-prompts leaving state, session and disk unchanged; in
`WAITING_FOR_ROLLNO` an empty stripped text likewise re-prompts
unchanged, and a non-empty one runs the pipeline synchronously within the
step, after which the session is terminal (conversation ended, record
deleted). -/
theorem claim8_text_transitions :
    (∀ (s : BotState) (sess : Session) (t : String) (po : PipeOutcome),
      s.conv = .waitingName → s.sess = some sess → pyStrip t ≠ "" →
      step s (.text t po) =
        ⟨⟨.waitingRollno, some { sess with name := some (pyStrip t) }, s.disk⟩,
          [askRollMsg], none⟩) ∧
    (∀ (s : BotState) (t : String) (po : PipeOutcome),
      s.conv = .waitingName → pyStrip t = "" →
      step s (.text t po) = ⟨s, [invalidNameMsg], none⟩) ∧
    (∀ (s : BotState) (t : String) (po : PipeOutcome),
      s.conv = .waitingRollno → pyStrip t = "" →
      step s (.text t po) = ⟨s, [invalidRollMsg], none⟩) ∧
    (∀ (s : BotState) (sess : Session) (name t : String) (po : PipeOutcome),
      s.conv = .waitingRollno → s.sess = some sess → sess.name = some name →
      pyStrip t ≠ "" →
      (step s (.text t po)).pipe = some (name, pyStrip t) ∧
      (step s (.text t po)).st.conv = .idle ∧
      (step s (.text t po)).st.sess = none) := by
  refine ⟨?_, ?_, ?_, ?_⟩
  · intro s sess t po hconv hsess ht
    obtain ⟨conv, so, d⟩ := s
    simp only at hconv hsess
    subst hconv; subst hsess
    simp [step, handle_name, if_neg ht]
  · intro s t po hconv ht
    obtain ⟨conv, so, d⟩ := s
    simp only at hconv
    subst hconv
    simp [step, handle_name, if_pos ht]
  · intro s t po hconv ht
    obtain ⟨conv, so, d⟩ := s
    simp only at hconv
    subst hconv
    simp [step, handle_rollno, if_pos ht]
  · intro s sess name t po hconv hsess hname ht
    obtain ⟨conv, so, d⟩ := s
    simp only at hconv hsess
    subst hconv; subst hsess
    simp only [step, handle_rollno, if_neg ht, hname, runPipeline]
    cases po <;> exact ⟨rfl, rfl, rfl⟩

/-- Witness for C8: a concrete name submission with surrounding whitespace
moves a waiting-for-name state to waiting-for-roll-number with the
stripped name stored. -/
theorem claim8_witness :
    step ⟨.waitingName, some ⟨"u_a.docx", ".docx", "a.docx", "u", none⟩,
        fun _ => false⟩ (.text " Alice " .success) =
      ⟨⟨.waitingRollno, some ⟨"u_a.docx", ".docx", "a.docx", "u", some "Alice"⟩,
          fun _ => false⟩, [askRollMsg], none⟩ :=
  claim8_text_transitions.1 _ ⟨"u_a.docx", ".docx", "a.docx", "u", none⟩
    " Alice " .success rfl rfl (by decide)

/-! ## The file-naming contract (C7)

The delicate part is the pdf path: `convert_docx_to_pdf` computes it with
`str.replace`, which substitutes every occurrence of `".docx"`, so the
contract `{name}_{rollNumber}.pdf` only holds when `".docx"` does not occur
inside `{name}_{rollNumber}` itself.  The lemmas below characterise the
replacement on a string of the shape `base ++ ".docx"`.
-/

/-- Evaluation of `pyReplaceFuel` on the empty list ignores the fuel. -/
lemma pyReplaceFuel_nil (pat rep : List Char) (f : Nat) :
    pyReplaceFuel pat rep f [] = [] := by
  cases f <;> rfl

/-- For a non-empty pattern, any fuel dominating the input length yields
the same result: the fuel is an artifact of the embedding, not of Python's
`str.replace`. -/
lemma pyReplaceFuel_congr (pat rep : List Char) (hpat : pat ≠ []) :
    ∀ f₁ f₂ s, s.length ≤ f₁ → s.length ≤ f₂ →
      pyReplaceFuel pat rep f₁ s = pyReplaceFuel pat rep f₂ s := by
  have hplen : 1 ≤ pat.length := List.length_pos.mpr hpat
  intro f₁
  induction f₁ with
  | zero =>
    intro f₂ s h1 _
    have hs : s = [] := List.eq_nil_of_length_eq_zero (Nat.le_zero.mp h1)
    subst hs
    rw [pyReplaceFuel_nil, pyReplaceFuel_nil]
  | succ f₁ ih =>
    intro f₂ s h1 h2
    cases s with
    | nil => rw [pyReplaceFuel_nil, pyReplaceFuel_nil]
    | cons c cs =>
      cases f₂ with
      | zero => simp at h2
      | succ f₂ =>
        simp only [List.length_cons] at h1 h2
        by_cases hcond : pat ≠ [] ∧ pat.isPrefixOf (c :: cs)
        · simp only [pyReplaceFuel, if_pos hcond]
          congr 1
          exact ih f₂ _ (by simp; omega) (by simp; omega)
        · simp only [pyReplaceFuel, if_neg hcond]
          congr 1
          exact ih f₂ cs (by omega) (by omega)

/-- Unfolding equation for `pyReplaceL` on a cons, for non-empty
patterns. -/
lemma pyReplaceL_cons (pat rep : List Char) (hpat : pat ≠ []) (c : Char)
    (cs : List Char) :
    pyReplaceL (c :: cs) pat rep =
      if pat.isPrefixOf (c :: cs) then
        rep ++ pyReplaceL ((c :: cs).drop pat.length) pat rep
      else c :: pyReplaceL cs pat rep := by
  have hplen : 1 ≤ pat.length := List.length_pos.mpr hpat
  unfold pyReplaceL
  simp only [List.length_cons, pyReplaceFuel]
  by_cases hp : pat.isPrefixOf (c :: cs)
  · rw [if_pos ⟨hpat, hp⟩, if_pos hp]
    congr 1
    exact pyReplaceFuel_congr pat rep hpat cs.length _ _ (by simp; omega)
      (le_refl _)
  · rw [if_neg (fun hand => hp hand.2), if_neg hp]

/-- Replacing `".docx"` by `".pdf"` in `base ++ ".docx"` rewrites exactly
the final occurrence whenever `".docx"` does not occur inside `base`: the
pattern has no non-trivial border, so no occurrence can straddle the
boundary. -/
lemma replace_append_docx (base : List Char)
    (h : ¬ (".docx".data <:+: base)) :
    pyReplaceL (base ++ ".docx".data) ".docx".data ".pdf".data =
      base ++ ".pdf".data := by
  induction base with
  | nil => decide
  | cons c bs ih =>
    have hne : (".docx".data : List Char) ≠ [] := by decide
    have h' : ¬ (".docx".data <:+: bs) := fun hin => h ( List.infix_cons hin)
    rw [List.cons_append, pyReplaceL_cons _ _ hne]
    by_cases hp : (".docx".data : List Char).isPrefixOf (c :: (bs ++ ".docx".data))
    · exfalso
      have hpre : (".docx".data : List Char) <+: (c :: bs) ++ ".docx".data := by
        rw [List.cons_append]
        exact List.isPrefixOf_iff_prefix.mp hp
      have htake : (".docx".data : List Char) =
          ((c :: bs) ++ ".docx".data).take (".docx".data.length) :=
        List.prefix_iff_eq_take.mp hpre
      rw [List.take_append_eq_append_take] at htake
      by_cases hlen : (".docx".data : List Char).length ≤ (c :: bs).length
      · apply h
        have hz : (".docx".data : List Char).length - (c :: bs).length = 0 := by
          omega
        rw [hz, List.take_zero, List.append_nil] at htake
        have hpfx : (".docx".data : List Char) <+: (c :: bs) := by
          rw [htake]
          exact List.take_prefix _ _
        exact hpfx.isInfix
      · have h5 : (".docx".data : List Char).length = 5 := by decide
        rw [h5] at hlen
        have hk4 : (c :: bs).length ≤ 4 := by omega
        have htk : (c :: bs).take (".docx".data : List Char).length = c :: bs :=
          List.take_of_length_le (by omega)
        rw [htk] at htake
        have hdrop : (".docx".data : List Char).drop (c :: bs).length =
            (".docx".data : List Char).take
              ((".docx".data : List Char).length - (c :: bs).length) := by
          conv_lhs => rw [htake]
          rw [List.drop_left]
        have hk1 : 1 ≤ (c :: bs).length := by simp
        set k := (c :: bs).length with hkdef
        interval_cases k <;> exact absurd hdrop (by decide)
    · rw [if_neg hp, ih h']
      rfl

/-- C7 (amended). The inbound file is persisted as
`{displayIdentifier}_{originalFileName}`; the footer-injected derivative is
saved as `{name}_{rollNumber}.docx`; and the final output path is
`{name}_{rollNumber}.pdf` provided `".docx"` does not occur inside the
string `{name}_{rollNumber}` (the code computes that path by replacing
every occurrence of `".docx"`, so with `".docx"` inside the base the
delivered path differs from the contract). -/
theorem claim7_naming_contract :
    (∀ (s : BotState) (fn uid : String), s.conv = .idle →
      pyLower (splitextExt fn) = ".docx" →
      (step s (.doc fn uid)).st.sess =
        some ⟨uid ++ "_" ++ fn, ".docx", fn, uid, none⟩ ∧
      (step s (.doc fn uid)).st.disk (uid ++ "_" ++ fn) = true) ∧
    (∀ (doc : DocxDocument) (name roll : String),
      (process_docx doc name roll).2 = name ++ "_" ++ roll ++ ".docx") ∧
    (∀ name roll : String, ¬ (".docx".data <:+: (name ++ "_" ++ roll).data) →
      pyStrReplace (docxOutputPath name roll) ".docx" ".pdf" =
        name ++ "_" ++ roll ++ ".pdf") := by
  refine ⟨?_, fun doc name roll => rfl, ?_⟩
  · intro s fn uid hconv hext
    obtain ⟨conv, so, d⟩ := s
    simp only at hconv
    subst hconv
    have hmem : pyLower (splitextExt fn) ∈ SUPPORTED_EXTENSIONS := by
      rw [hext]; decide
    simp only [step, handle_document, if_pos hmem, hext]
    exact ⟨rfl, if_pos rfl⟩
  · intro name roll h
    show String.mk
        (pyReplaceL ((name ++ "_" ++ roll).data ++ ".docx".data)
          ".docx".data ".pdf".data) = name ++ "_" ++ roll ++ ".pdf"
    rw [replace_append_docx _ h]
    rfl

/-- Witness for C7 (amended): user `u` sending `a.docx`, then
Alice / 42. -/
theorem claim7_witness :
    ((step (init (fun _ => false)) (.doc "a.docx" "u")).st.sess =
      some ⟨"u" ++ "_" ++ "a.docx", ".docx", "a.docx", "u", none⟩ ∧
     (step (init (fun _ => false)) (.doc "a.docx" "u")).st.disk
       ("u" ++ "_" ++ "a.docx") = true) ∧
    pyStrReplace (docxOutputPath "Alice" "42") ".docx" ".pdf" =
      "Alice" ++ "_" ++ "42" ++ ".pdf" :=
  ⟨claim7_naming_contract.1 _ "a.docx" "u" rfl (by decide),
   claim7_naming_contract.2.2 "Alice" "42" (by decide)⟩

/-- C7 counterexample. With name `"x.docx"` and roll `"1"` — arbitrary
non-empty user text — the derivative is `x.docx_1.docx` and the converter
returns `x.pdf_1.pdf`, not the `x.docx_1.pdf` the naming contract
prescribes. -/
theorem claim7_counterexample :
    convert_docx_to_pdf (fun _ => (0, "")) (docxOutputPath "x.docx" "1") =
      Except.ok "x.pdf_1.pdf" ∧
    ("x.pdf_1.pdf" : String) ≠ "x.docx" ++ "_" ++ "1" ++ ".pdf" :=
  ⟨rfl, by decide⟩

end FooterBot
